import Mathlib

/-!
Verification of the FIGMENT threat-intelligence frontend and of the
Threat Clustering and Aggregation Engine it consumes.

Numbers that JavaScript holds as IEEE doubles are modelled as rationals.
A JavaScript value that may be null, undefined or malformed is modelled
as an Option; a missing or non-numeric number is the value none.
-/

/-- One agent output inside a receiver-history entry, as consumed by
formatHistory in ThreatTimeline.jsx: a risk score that may be absent or
malformed and an optional evidence list. -/
structure AgentOutput where
  risk_score : Option ℚ
  evidence : Option (List String)
deriving DecidableEq

/-- One entry of the receiver history passed to ThreatTimeline. -/
structure HistoryEntry where
  timestamp : Option String
  agent_outputs : Option (List AgentOutput)
deriving DecidableEq

/-- JavaScript coercion used by formatHistory: Number(x) followed by
falsy fallback 0, so a missing or malformed risk score becomes 0. -/
def numOr0 : Option ℚ → ℚ
  | some q => q
  | none => 0

/-- riskScores of ThreatTimeline.formatHistory:
entry.agent_outputs?.map((agent) => Number(agent.risk_score) || 0) || []. -/
def riskScores (e : HistoryEntry) : List ℚ :=
  (e.agent_outputs.getD []).map (fun a => numOr0 a.risk_score)

/-- avgRisk of formatHistory: riskScores.length ? sum / length : 0. -/
def avgRisk (e : HistoryEntry) : ℚ :=
  let rs := riskScores e
  if rs.length = 0 then 0 else rs.sum / (rs.length : ℚ)

/-- Number(x.toFixed(1)): round to one decimal, halves away from zero
toward plus infinity as ECMAScript toFixed specifies. -/
def round1 (q : ℚ) : ℚ := ((⌊q * 10 + 1 / 2⌋ : ℤ) : ℚ) / 10

/-- flags of formatHistory:
entry.agent_outputs?.flatMap((agent) => agent.evidence || []) || []. -/
def entryFlags (e : HistoryEntry) : List String :=
  ((e.agent_outputs.getD []).map (fun a => a.evidence.getD [])).flatten

/-- One formatted point returned by formatHistory (the locale label is
presentation only and not modelled). -/
structure TimelinePoint where
  timestamp : Option String
  threatScore : ℚ
  flags : List String
deriving DecidableEq

/-- formatHistory of ThreatTimeline.jsx. -/
def formatHistory (history : List HistoryEntry) : List TimelinePoint :=
  history.map (fun e => ⟨e.timestamp, round1 (avgRisk e), entryFlags e⟩)

/-- A raw cluster record as returned by the threat-intel API, every
field possibly absent, as destructured by fetchThreatIntel in
HomePage.js.  Timestamps are modelled as epoch milliseconds; an absent
or unparseable date is none. -/
structure RawCluster where
  clusterId : Option String
  name : Option String
  count : Option ℕ
  size : Option ℕ
  members : Option (List String)
  receivers : Option (List String)
  avgScore : Option ℚ
  avg_score : Option ℚ
  topKeywords : Option (List String)
  top_keywords : Option (List String)
  updatedAt : Option ℤ
  updated_at : Option ℤ
  active : Option Bool
deriving DecidableEq

/-- JavaScript nullish / falsy fallback between two optional values. -/
def jsOr {α : Type} : Option α → Option α → Option α
  | some a, _ => some a
  | none, b => b

/-- The cluster as normalised by fetchThreatIntel in HomePage.js. -/
structure MappedCluster where
  name : Option String
  avgScore : ℚ
  count : ℕ
  topKeywords : List String
  updatedAt : Option ℤ
  active : Bool
deriving DecidableEq

/-- The per-cluster mapping inside fetchThreatIntel:
count = cluster.count ?? cluster.size ?? members?.length ?? receivers?.length ?? 0,
avgScore = cluster.avgScore ?? cluster.avg_score ?? 0,
topKeywords = cluster.topKeywords || cluster.top_keywords || [],
updatedAt = cluster.updatedAt || cluster.updated_at,
active = cluster.active !== false. -/
def mapCluster (c : RawCluster) : MappedCluster :=
  { name := c.name
    avgScore := (jsOr c.avgScore c.avg_score).getD 0
    count := c.count.getD (c.size.getD
      ((c.members.map List.length).getD ((c.receivers.map List.length).getD 0)))
    topKeywords := (jsOr c.topKeywords c.top_keywords).getD []
    updatedAt := jsOr c.updatedAt c.updated_at
    active := match c.active with
      | some false => false
      | _ => true }

/-- fetchThreatIntel maps the whole fetched list. -/
def mapClusterList (cs : List RawCluster) : List MappedCluster :=
  cs.map mapCluster

/-- The seven-day recency window of ThreatIntelDashboard:
1000 * 60 * 60 * 24 * 7 milliseconds. -/
def emergingThresholdMs : ℤ := 1000 * 60 * 60 * 24 * 7

/-- isEmerging of ThreatIntelDashboard:
updatedMs = cluster.updatedAt ? getTime() : 0, then
Boolean(updatedMs && now - updatedMs <= emergingThreshold). -/
def isEmergingAt (now : ℤ) (c : MappedCluster) : Bool :=
  match c.updatedAt with
  | none => false
  | some t => decide (t ≠ 0 ∧ now - t ≤ emergingThresholdMs)

/-- The three dashboard sections of ThreatIntelDashboard. -/
inductive DashSection where
  | emerging
  | activeSec
  | inactiveSec
deriving DecidableEq

/-- The branch inside clusters.forEach of ThreatIntelDashboard:
inactive when active is false, else emerging when recently updated,
else active. -/
def sectionOf (now : ℤ) (c : MappedCluster) : DashSection :=
  if c.active = false then DashSection.inactiveSec
  else if isEmergingAt now c then DashSection.emerging
  else DashSection.activeSec

/-- The enriched cluster pushed by the forEach: the spread
{...cluster, isEmerging}. -/
structure EnrichedCluster where
  base : MappedCluster
  isEmerging : Bool
deriving DecidableEq

/-- enrichedCluster of ThreatIntelDashboard. -/
def enrich (now : ℤ) (c : MappedCluster) : EnrichedCluster :=
  ⟨c, isEmergingAt now c⟩

/-- The forEach of ThreatIntelDashboard that distributes every cluster
over the emerging, active and inactive lists, in order. -/
def partitionClusters (now : ℤ) :
    List MappedCluster → List EnrichedCluster × List EnrichedCluster × List EnrichedCluster
  | [] => ([], [], [])
  | c :: rest =>
    let p := partitionClusters now rest
    let e := enrich now c
    if c.active = false then (p.1, p.2.1, e :: p.2.2)
    else if isEmergingAt now c then (e :: p.1, p.2.1, p.2.2)
    else (p.1, e :: p.2.1, p.2.2)

/-- The trending-threat payload rendered by ResultsModal.js. -/
structure TrendingThreat where
  receiver : String
  totalReports : ℕ
  threatScore : Option ℚ
  patternFlags : Option (List String)
deriving DecidableEq

/-- The cluster payload rendered by the cluster-member and
cluster-match blocks of ResultsModal.js. -/
structure ClusterInfo where
  name : String
  count : ℕ
  avgScore : Option ℚ
  topKeywords : Option (List String)
  similarity : Option ℚ
deriving DecidableEq

/-- The threatIntel object of an analysis result as read by
ResultsModal.js: three optional alert payloads. -/
structure ThreatIntel where
  trendingThreat : Option TrendingThreat
  clusterMember : Option ClusterInfo
  clusterMatch : Option ClusterInfo
deriving DecidableEq

/-- Number of contextual alert blocks ResultsModal renders: one per
present field, per the three conditionals
results.threatIntel?.trendingThreat, ?.clusterMember, ?.clusterMatch. -/
def shownContextBlocks (ti : Option ThreatIntel) : ℕ :=
  match ti with
  | none => 0
  | some t =>
    (if t.trendingThreat.isSome then 1 else 0) +
    (if t.clusterMember.isSome then 1 else 0) +
    (if t.clusterMatch.isSome then 1 else 0)

/-- The four contextual signals of the Threat Score Aggregator. -/
inductive ContextSignal where
  | trending
  | clusterMember
  | clusterMatch
  | noSignal
deriving DecidableEq

/-- Modelled from the spec: the Threat Score Aggregator's signal
selection (the backend service is not under src; the repository
documentation states the priority trending, then cluster member, then
pattern match only if not already a member).  Exactly one signal is
chosen by strict priority. -/
def contextSignal (isTrending isMember isMatch : Bool) : ContextSignal :=
  if isTrending then ContextSignal.trending
  else if isMember then ContextSignal.clusterMember
  else if isMatch then ContextSignal.clusterMatch
  else ContextSignal.noSignal

/-- Modelled from the spec: the threatIntel payload the backend attaches
to an analysis result, populating only the field of the selected
signal. -/
def buildThreatIntel (tinfo : TrendingThreat) (minfo cinfo : ClusterInfo)
    (isTrending isMember isMatch : Bool) : ThreatIntel :=
  match contextSignal isTrending isMember isMatch with
  | ContextSignal.trending => ⟨some tinfo, none, none⟩
  | ContextSignal.clusterMember => ⟨none, some minfo, none⟩
  | ContextSignal.clusterMatch => ⟨none, none, some cinfo⟩
  | ContextSignal.noSignal => ⟨none, none, none⟩

/-- Modelled from the spec: the Threat Score Aggregator's risk blend
(the backend service is not under src; the frontend only displays
overallRisk): 0.7 * agent_aggregate + 0.3 * contextual_score, clipped
to the interval [0, 100]. -/
def overall_risk (agent_aggregate contextual_score : ℚ) : ℚ :=
  min 100 (max 0 (7 / 10 * agent_aggregate + 3 / 10 * contextual_score))

/-- Modelled from the spec: a persisted backend cluster (the Python
engine holding Cluster records is not under src). -/
structure BackCluster where
  name : String
  active : Bool
  avg_score : ℚ
  members : List String
  top_keywords : List String
  updated_at : Option ℤ
deriving DecidableEq

/-- Descending order on average score, used by get_top_clusters. -/
def byScoreDesc (a b : BackCluster) : Prop := b.avg_score ≤ a.avg_score

instance : DecidableRel byScoreDesc :=
  fun a b => inferInstanceAs (Decidable (b.avg_score ≤ a.avg_score))

instance : IsTotal BackCluster byScoreDesc :=
  ⟨fun a b => le_total b.avg_score a.avg_score⟩

instance : IsTrans BackCluster byScoreDesc :=
  ⟨fun _ _ _ hab hbc => le_trans hbc hab⟩

/-- Modelled from the spec: get_top_clusters(n) of the engine,
active clusters sorted by avg_score descending, first n taken. -/
def get_top_clusters (n : ℕ) (cs : List BackCluster) : List BackCluster :=
  (List.insertionSort byScoreDesc (cs.filter (fun c => c.active))).take n

/-- Modelled from the spec: the JSON shape in which the backend's
clusters endpoint (absent from src) serialises a cluster for the
frontend, per the repository API documentation. -/
def serializeCluster (b : BackCluster) : RawCluster :=
  { clusterId := some b.name
    name := some b.name
    count := some b.members.length
    size := none
    members := some b.members
    receivers := none
    avgScore := some b.avg_score
    avg_score := none
    topKeywords := some b.top_keywords
    top_keywords := none
    updatedAt := b.updated_at
    updated_at := none
    active := some b.active }

/-- Modelled from the spec: a cluster as seen by the Merge Engine,
with normalised keywords, name tokens, centroid, member set and
average score. -/
structure MCluster where
  keywords : List String
  nameTokens : List String
  centroid : List ℚ
  members : List String
  avg_score : ℚ
deriving DecidableEq

/-- Number of elements of the first list also present in the second. -/
def interCount (xs ys : List String) : ℕ :=
  (xs.filter (fun x => ys.contains x)).length

/-- Duplicate-free-union of two lists, left side first. -/
def unionList (xs ys : List String) : List String :=
  xs ++ ys.filter (fun y => ¬ xs.contains y)

/-- Size of the union of two keyword lists. -/
def unionCount (xs ys : List String) : ℕ := (unionList xs ys).length

/-- Dot product of two rational vectors. -/
def dotQ (u v : List ℚ) : ℚ := (List.zipWith (fun x y => x * y) u v).sum

/-- Squared Euclidean norm of a rational vector. -/
def norm2 (u : List ℚ) : ℚ := dotQ u u

/-- Modelled from the spec: the curated core scam indicator list (its
contents are not under src; a fixed representative list). -/
def coreIndicators : List String :=
  ["loan", "otp", "kyc", "urgent", "lottery", "prize", "refund", "verify"]

/-- Keywords shared by both clusters that are core scam indicators. -/
def sharedCoreCount (a b : MCluster) : ℕ :=
  (a.keywords.filter (fun k => b.keywords.contains k && coreIndicators.contains k)).length

/-- Modelled from the spec: the Pass-2 similarity predicate of the
Merge Engine.  Two clusters merge if any of: normalised keyword-set
overlap at least 40 percent (intersection over union), cosine centroid
similarity at least 70 percent (stated on squares to stay rational),
at least 2 shared core scam indicators, or name-token overlap at least
67 percent together with at least one shared keyword. -/
def pass2Pred (a b : MCluster) : Bool :=
  decide (0 < unionCount a.keywords b.keywords ∧
      5 * interCount a.keywords b.keywords ≥ 2 * unionCount a.keywords b.keywords) ||
  decide (norm2 a.centroid ≠ 0 ∧ norm2 b.centroid ≠ 0 ∧ 0 ≤ dotQ a.centroid b.centroid ∧
      100 * dotQ a.centroid b.centroid * dotQ a.centroid b.centroid ≥
        49 * norm2 a.centroid * norm2 b.centroid) ||
  decide (2 ≤ sharedCoreCount a b) ||
  decide (0 < unionCount a.nameTokens b.nameTokens ∧
      3 * interCount a.nameTokens b.nameTokens ≥ 2 * unionCount a.nameTokens b.nameTokens ∧
      1 ≤ interCount a.keywords b.keywords)

/-- Modelled from the spec: the Pass-1 exact predicate, set-equality of
normalised keyword sets. -/
def pass1Pred (a b : MCluster) : Bool :=
  a.keywords.all (fun k => b.keywords.contains k) &&
  b.keywords.all (fun k => a.keywords.contains k)

/-- Modelled from the spec: the merge of two clusters.  Member sets
union; average score is the member-count-weighted mean; keywords union
(the corpus-wide TF-IDF cap needs the event corpus, which is not under
src, and is not modelled); centroid is the member-count-weighted mean;
name tokens union (re-derivation needs the corpus). -/
def mergeTwo (a b : MCluster) : MCluster :=
  let na : ℚ := a.members.length
  let nb : ℚ := b.members.length
  { keywords := unionList a.keywords b.keywords
    nameTokens := unionList a.nameTokens b.nameTokens
    centroid := List.zipWith (fun x y => (na * x + nb * y) / (na + nb)) a.centroid b.centroid
    members := unionList a.members b.members
    avg_score := (na * a.avg_score + nb * b.avg_score) / (na + nb) }

/-- Modelled from the spec: first cluster of the list mergeable with c
under the predicate, together with the list with that partner removed. -/
def findPartner (P : MCluster → MCluster → Bool) (c : MCluster) :
    List MCluster → Option (MCluster × List MCluster)
  | [] => none
  | d :: rest =>
    if P c d then some (d, rest)
    else match findPartner P c rest with
      | some (d', rest') => some (d', d :: rest')
      | none => none

/-- Modelled from the spec: one merge of the first mergeable pair, or
none when no two clusters satisfy the predicate. -/
def mergeStep (P : MCluster → MCluster → Bool) :
    List MCluster → Option (List MCluster)
  | [] => none
  | c :: rest =>
    match findPartner P c rest with
    | some (d, rest') => some (mergeTwo c d :: rest')
    | none =>
      match mergeStep P rest with
      | some rest' => some (c :: rest')
      | none => none

/-- Modelled from the spec: repeated merging, bounded by the given
fuel. -/
def mergeRun (P : MCluster → MCluster → Bool) : ℕ → List MCluster → List MCluster
  | 0, cs => cs
  | fuel + 1, cs =>
    match mergeStep P cs with
    | some next => mergeRun P fuel next
    | none => cs

/-- Modelled from the spec: one pass of the Merge Engine, merging while
any pair satisfies the predicate (each merge strictly shrinks the list,
so the list length bounds the number of merges). -/
def mergePass (P : MCluster → MCluster → Bool) (cs : List MCluster) : List MCluster :=
  mergeRun P cs.length cs

/-- Modelled from the spec: the three ordered passes of the Merge
Engine over new candidates and persisted clusters: the exact pass, the
similarity pass, and the final sweep rerunning the similarity
predicates on the combined, already-merged set. -/
def mergePipeline (fresh persisted : List MCluster) : List MCluster :=
  mergePass pass2Pred (mergePass pass2Pred (mergePass pass1Pred (fresh ++ persisted)))

/-- Lexicographic comparison of character lists, the alphabetical order
used to break naming ties. -/
def charListLE : List Char → List Char → Bool
  | [], _ => true
  | _ :: _, [] => false
  | a :: as, b :: bs =>
    if a < b then true
    else if b < a then false
    else charListLE as bs

theorem charListLE_total : ∀ as bs, charListLE as bs = true ∨ charListLE bs as = true := by
  intro as
  induction as with
  | nil => intro bs; exact Or.inl rfl
  | cons a as ih =>
    intro bs
    cases bs with
    | nil => exact Or.inr rfl
    | cons b bs =>
      by_cases hab : a < b
      · exact Or.inl (by simp [charListLE, hab])
      · by_cases hba : b < a
        · exact Or.inr (by simp [charListLE, hba, hab])
        · rcases ih bs with h | h
          · exact Or.inl (by simpa [charListLE, hab, hba] using h)
          · exact Or.inr (by simpa [charListLE, hab, hba] using h)

theorem charListLE_trans :
    ∀ as bs cs, charListLE as bs = true → charListLE bs cs = true →
      charListLE as cs = true := by
  intro as
  induction as with
  | nil => intro bs cs _ _; rfl
  | cons a as ih =>
    intro bs cs hab hbc
    cases bs with
    | nil => simp [charListLE] at hab
    | cons b bs =>
      cases cs with
      | nil => simp [charListLE] at hbc
      | cons c cs =>
        by_cases h1 : a < b
        · by_cases h2 : b < c
          · simp [charListLE, lt_trans h1 h2]
          · by_cases h3 : c < b
            · simp [charListLE, h2, h3] at hbc
            · have hbc' : b = c := le_antisymm (not_lt.mp h3) (not_lt.mp h2)
              simp [charListLE, hbc' ▸ h1]
        · by_cases h4 : b < a
          · simp [charListLE, h1, h4] at hab
          · have hab' : a = b := le_antisymm (not_lt.mp h4) (not_lt.mp h1)
            by_cases h2 : b < c
            · simp [charListLE, hab' ▸ h2]
            · by_cases h3 : c < b
              · simp [charListLE, h2, h3] at hbc
              · have hbc' : b = c := le_antisymm (not_lt.mp h3) (not_lt.mp h2)
                have h5 : ¬ a < c := by rw [hab', hbc']; exact lt_irrefl c
                have h6 : ¬ c < a := by rw [hab', hbc']; exact lt_irrefl c
                have hab2 : charListLE as bs = true := by
                  simpa [charListLE, h1, h4] using hab
                have hbc2 : charListLE bs cs = true := by
                  simpa [charListLE, h2, h3] using hbc
                simpa [charListLE, h5, h6] using ih bs cs hab2 hbc2

theorem charListLE_antisymm :
    ∀ as bs, charListLE as bs = true → charListLE bs as = true → as = bs := by
  intro as
  induction as with
  | nil =>
    intro bs _ hba
    cases bs with
    | nil => rfl
    | cons b bs => simp [charListLE] at hba
  | cons a as ih =>
    intro bs hab hba
    cases bs with
    | nil => simp [charListLE] at hab
    | cons b bs =>
      by_cases h1 : a < b
      · simp [charListLE, h1, asymm h1] at hba
      · by_cases h2 : b < a
        · simp [charListLE, h1, h2] at hab
        · have hab' : a = b := le_antisymm (not_lt.mp h2) (not_lt.mp h1)
          have hab2 : charListLE as bs = true := by
            simpa [charListLE, h1, h2] using hab
          have hba2 : charListLE bs as = true := by
            simpa [charListLE, h1, h2] using hba
          rw [hab', ih bs hab2 hba2]

/-- Modelled from the spec: the ordering of cluster-naming terms,
higher TF-IDF score first, ties broken alphabetically. -/
def termOrder (a b : String × ℚ) : Prop :=
  b.2 < a.2 ∨ (b.2 = a.2 ∧ charListLE a.1.data b.1.data = true)

instance : DecidableRel termOrder :=
  fun a b =>
    inferInstanceAs (Decidable (b.2 < a.2 ∨ (b.2 = a.2 ∧ charListLE a.1.data b.1.data = true)))

instance : IsTotal (String × ℚ) termOrder := by
  constructor
  intro a b
  rcases lt_trichotomy a.2 b.2 with h | h | h
  · exact Or.inr (Or.inl h)
  · rcases charListLE_total a.1.data b.1.data with hs | hs
    · exact Or.inl (Or.inr ⟨h.symm, hs⟩)
    · exact Or.inr (Or.inr ⟨h, hs⟩)
  · exact Or.inl (Or.inl h)

instance : IsTrans (String × ℚ) termOrder := by
  constructor
  intro a b c hab hbc
  rcases hab with h1 | ⟨h1, h1s⟩
  · rcases hbc with h2 | ⟨h2, _⟩
    · exact Or.inl (h2.trans h1)
    · exact Or.inl (h2 ▸ h1)
  · rcases hbc with h2 | ⟨h2, h2s⟩
    · exact Or.inl (h1 ▸ h2)
    · exact Or.inr ⟨h2.trans h1, charListLE_trans _ _ _ h1s h2s⟩

instance : IsAntisymm (String × ℚ) termOrder := by
  constructor
  intro a b hab hba
  rcases hab with h1 | ⟨h1, h1s⟩
  · rcases hba with h2 | ⟨h2, _⟩
    · exact absurd (h1.trans h2) (lt_irrefl _)
    · exact absurd h1 (h2 ▸ lt_irrefl _)
  · rcases hba with h2 | ⟨h2, h2s⟩
    · exact absurd h2 (h1 ▸ lt_irrefl _)
    · have hdata : a.1.data = b.1.data := charListLE_antisymm _ _ h1s h2s
      have hstr : a.1 = b.1 := by
        cases ha : a.1
        cases hb : b.1
        simp only [ha, hb] at hdata
        rw [hdata]
      exact Prod.ext hstr h1.symm

/-- Modelled from the spec: title-casing of one naming term. -/
def titleCase (s : String) : String :=
  match s.toList with
  | [] => ""
  | c :: cs => String.mk (c.toUpper :: cs.map Char.toLower)

/-- Modelled from the spec: the top 3 terms by TF-IDF score, ties
broken alphabetically. -/
def topTerms (terms : List (String × ℚ)) : List String :=
  ((List.insertionSort termOrder terms).take 3).map (fun p => p.1)

/-- Modelled from the spec: the cluster name, the top 3 terms
title-cased and joined with the fixed separator. -/
def clusterName (terms : List (String × ℚ)) : String :=
  String.intercalate " / " ((topTerms terms).map titleCase)

/-- Claim C1: exactly one contextual signal is surfaced per analysis
result, chosen by the strict priority trending, then cluster member,
then cluster match, then none; even when several conditions hold at
once the result modal renders exactly one contextual alert block. -/
theorem c1_signal_priority (t m c : Bool) (tinfo : TrendingThreat)
    (minfo cinfo : ClusterInfo) :
    (contextSignal t m c = ContextSignal.trending ↔ t = true) ∧
    (contextSignal t m c = ContextSignal.clusterMember ↔ t = false ∧ m = true) ∧
    (contextSignal t m c = ContextSignal.clusterMatch ↔
      t = false ∧ m = false ∧ c = true) ∧
    (contextSignal t m c = ContextSignal.noSignal ↔
      t = false ∧ m = false ∧ c = false) ∧
    shownContextBlocks (some (buildThreatIntel tinfo minfo cinfo t m c)) =
      (if t || m || c then 1 else 0) := by
  cases t <;> cases m <;> cases c <;>
    simp [contextSignal, buildThreatIntel, shownContextBlocks]

/-- Claim C2: with the four agent scores available, overall risk is
0.7 times the agent aggregate plus 0.3 times the contextual score, and
the result lies in [0, 100]. -/
theorem c2_overall_risk_blend (a c : ℚ) (ha0 : 0 ≤ a) (ha1 : a ≤ 100)
    (hc0 : 0 ≤ c) (hc1 : c ≤ 100) :
    overall_risk a c = 7 / 10 * a + 3 / 10 * c ∧
    0 ≤ overall_risk a c ∧ overall_risk a c ≤ 100 := by
  have h0 : (0 : ℚ) ≤ 7 / 10 * a + 3 / 10 * c := by
    have t1 : (0 : ℚ) ≤ 7 / 10 * a := by positivity
    have t2 : (0 : ℚ) ≤ 3 / 10 * c := by positivity
    linarith
  have h1 : 7 / 10 * a + 3 / 10 * c ≤ 100 := by
    have t1 : 7 / 10 * a ≤ 7 / 10 * 100 := by
      have : (0 : ℚ) ≤ 7 / 10 := by norm_num
      exact mul_le_mul_of_nonneg_left ha1 this
    have t2 : 3 / 10 * c ≤ 3 / 10 * 100 := by
      have : (0 : ℚ) ≤ 3 / 10 := by norm_num
      exact mul_le_mul_of_nonneg_left hc1 this
    linarith
  have hval : overall_risk a c = 7 / 10 * a + 3 / 10 * c := by
    unfold overall_risk
    rw [max_eq_right h0, min_eq_right h1]
  refine ⟨hval, ?_, ?_⟩
  · rw [hval]; exact h0
  · rw [hval]; exact h1

/-- Witness for C2 at agent aggregate 80 and contextual score 50. -/
theorem c2_overall_risk_blend_witness :
    ((0 : ℚ) ≤ 80 ∧ (80 : ℚ) ≤ 100 ∧ (0 : ℚ) ≤ 50 ∧ (50 : ℚ) ≤ 100) ∧
    (overall_risk 80 50 = 7 / 10 * 80 + 3 / 10 * 50 ∧
      0 ≤ overall_risk 80 50 ∧ overall_risk 80 50 ≤ 100) :=
  ⟨⟨by norm_num, by norm_num, by norm_num, by norm_num⟩,
    c2_overall_risk_blend 80 50 (by norm_num) (by norm_num) (by norm_num)
      (by norm_num)⟩

/-- A fully qualified cluster (10 members, above the minimum size 3),
active and updated at the current instant. -/
def qualifiedRecentCluster : MappedCluster :=
  { name := some "Loan Scam"
    avgScore := 65
    count := 10
    topKeywords := ["loan", "urgent"]
    updatedAt := some 1000
    active := true }

/-- Counterexample to claim C3: the dashboard classifies this
min-size-satisfying active cluster as emerging merely because it was
recently updated; no size condition is consulted. -/
theorem c3_emerging_counterexample :
    sectionOf 1000 qualifiedRecentCluster = DashSection.emerging ∧
    3 ≤ qualifiedRecentCluster.count ∧
    qualifiedRecentCluster.active = true := by
  refine ⟨?_, by decide, by decide⟩
  decide

/-- Claim C3 as amended: the dashboard classifies a cluster as emerging
exactly when it is active and carries a nonzero update timestamp within
the seven-day window, regardless of its member count; noise pools and
secondary size thresholds play no part. -/
theorem c3_emerging_amended (now : ℤ) (c : MappedCluster) :
    sectionOf now c = DashSection.emerging ↔
      c.active = true ∧
      (∃ t, c.updatedAt = some t ∧ t ≠ 0 ∧ now - t ≤ emergingThresholdMs) := by
  constructor
  · intro h
    unfold sectionOf at h
    by_cases ha : c.active = false
    · simp [ha] at h
    · have ha' : c.active = true := by
        cases hx : c.active
        · exact absurd hx ha
        · rfl
      refine ⟨ha', ?_⟩
      by_cases he : isEmergingAt now c = true
      · unfold isEmergingAt at he
        cases hu : c.updatedAt with
        | none => rw [hu] at he; simp at he
        | some t =>
          rw [hu] at he
          have := of_decide_eq_true he
          exact ⟨t, rfl, this.1, this.2⟩
      · simp [ha, he] at h
  · rintro ⟨ha, t, hu, ht0, htw⟩
    unfold sectionOf
    have he : isEmergingAt now c = true := by
      unfold isEmergingAt
      rw [hu]
      exact decide_eq_true ⟨ht0, htw⟩
    simp [ha, he]

/-- Witness for the amended C3: a concrete active cluster updated
within the window is put in the emerging section. -/
theorem c3_emerging_amended_witness :
    sectionOf 1000 qualifiedRecentCluster = DashSection.emerging :=
  (c3_emerging_amended 1000 qualifiedRecentCluster).mpr
    ⟨by decide, 1000, by decide, by decide, by decide⟩

/-- A history entry whose single agent output has a malformed risk
score and no evidence. -/
def malformedEntry : HistoryEntry :=
  ⟨some "2025-01-01T00:00:00Z", some [⟨none, none⟩]⟩

/-- round1 maps 0 to 0. -/
theorem round1_zero : round1 0 = 0 := by
  norm_num [round1]

/-- Counterexample to claim C4: a malformed agent score is substituted
with 0, not with the neutral default 50; the entry is still formatted. -/
theorem c4_neutral_default_counterexample :
    formatHistory [malformedEntry] =
      [⟨some "2025-01-01T00:00:00Z", 0, []⟩] ∧ (0 : ℚ) ≠ 50 := by
  constructor
  · have h : avgRisk malformedEntry = 0 := by
      norm_num [avgRisk, riskScores, malformedEntry, numOr0]
    simp only [formatHistory, List.map]
    rw [h, round1_zero]
    simp [malformedEntry, entryFlags]
  · norm_num

/-- Claim C4 as amended: a missing or malformed agent score is
substituted with the default 0 (not 50) in that agent slot, and the
event is never rejected: formatting keeps one output entry per input
entry. -/
theorem c4_neutral_default_amended (h : List HistoryEntry) (ts : Option String)
    (ev : Option (List String)) (rest : List AgentOutput) :
    (formatHistory h).length = h.length ∧
    riskScores ⟨ts, some (⟨none, ev⟩ :: rest)⟩ =
      0 :: rest.map (fun a => numOr0 a.risk_score) := by
  constructor
  · simp [formatHistory]
  · simp [riskScores, numOr0]

/-- Claim C10: formatHistory is total, yields one point per input
entry, and its threatScore is the arithmetic mean of the agents'
numeric risk scores rounded to one decimal, or exactly 0 when an entry
has no agent outputs or the field is absent. -/
theorem c10_formatHistory_total (h : List HistoryEntry) :
    (formatHistory h).length = h.length ∧
    (formatHistory h).map (fun p => p.threatScore) =
      h.map (fun e =>
        if (e.agent_outputs.getD []).length = 0 then 0
        else round1 ((riskScores e).sum / ((riskScores e).length : ℚ))) := by
  constructor
  · simp [formatHistory]
  · simp only [formatHistory, List.map_map]
    apply List.map_congr_left
    intro e _
    simp only [Function.comp]
    by_cases he : (e.agent_outputs.getD []).length = 0
    · have hlen : (riskScores e).length = 0 := by
        simp [riskScores, he]
      simp [avgRisk, hlen, he, round1_zero]
    · have hlen : (riskScores e).length ≠ 0 := by
        simp [riskScores, he]
      simp [avgRisk, hlen, he]

/-- A raw cluster record with every field absent. -/
def bareRawCluster : RawCluster :=
  ⟨none, none, none, none, none, none, none, none, none, none, none, none, none⟩

/-- Counterexample to claim C5: display defaulting turns a record with
no fields into an active cluster with 0 members, below the minimum
cluster size 3. -/
theorem c5_min_size_counterexample :
    (mapCluster bareRawCluster).active = true ∧
    (mapCluster bareRawCluster).count = 0 ∧ (0 : ℕ) < 3 :=
  ⟨by decide, by decide, by decide⟩

/-- Claim C5 as amended: in the code under src, the display mapping
marks a cluster active exactly when its active field is not literally
false, independently of the member count, so the minimum-size
invariant is not enforced there. -/
theorem c5_active_default_amended (c : RawCluster) :
    (mapCluster c).active = true ↔ c.active ≠ some false := by
  cases h : c.active with
  | none => simp [mapCluster, h]
  | some b => cases b <;> simp [mapCluster, h]

/-- The forEach of ThreatIntelDashboard puts each cluster in the list
of its section, in input order. -/
theorem partitionClusters_eq_filters (now : ℤ) (cs : List MappedCluster) :
    partitionClusters now cs =
      ((cs.filter (fun c => decide (sectionOf now c = DashSection.emerging))).map (enrich now),
       (cs.filter (fun c => decide (sectionOf now c = DashSection.activeSec))).map (enrich now),
       (cs.filter (fun c => decide (sectionOf now c = DashSection.inactiveSec))).map (enrich now)) := by
  induction cs with
  | nil => rfl
  | cons c rest ih =>
    by_cases ha : c.active = false
    · have hs : sectionOf now c = DashSection.inactiveSec := by simp [sectionOf, ha]
      simp [partitionClusters, ha, hs, ih, List.filter_cons]
    · by_cases he : isEmergingAt now c = true
      · have hs : sectionOf now c = DashSection.emerging := by simp [sectionOf, ha, he]
        simp [partitionClusters, ha, he, hs, ih, List.filter_cons]
      · have hs : sectionOf now c = DashSection.activeSec := by simp [sectionOf, ha, he]
        simp [partitionClusters, ha, he, hs, ih, List.filter_cons]

/-- The three section filters of the dashboard cover each cluster
exactly once. -/
theorem filter_sections_length (now : ℤ) (cs : List MappedCluster) :
    (cs.filter (fun c => decide (sectionOf now c = DashSection.emerging))).length +
      (cs.filter (fun c => decide (sectionOf now c = DashSection.activeSec))).length +
      (cs.filter (fun c => decide (sectionOf now c = DashSection.inactiveSec))).length =
      cs.length := by
  induction cs with
  | nil => rfl
  | cons c rest ih =>
    cases hs : sectionOf now c <;>
      simp [List.filter_cons, hs] <;> omega

/-- Claim C9: the dashboard partition is exhaustive and exclusive:
each fetched cluster lands in exactly the list of its section (so the
three lengths add up to the input length and no cluster is dropped or
duplicated), and an inactive cluster goes to the inactive list no
matter how recent its update is. -/
theorem c9_partition_exhaustive (now : ℤ) (cs : List MappedCluster) :
    (partitionClusters now cs).1 =
      (cs.filter (fun c => decide (sectionOf now c = DashSection.emerging))).map (enrich now) ∧
    (partitionClusters now cs).2.1 =
      (cs.filter (fun c => decide (sectionOf now c = DashSection.activeSec))).map (enrich now) ∧
    (partitionClusters now cs).2.2 =
      (cs.filter (fun c => decide (sectionOf now c = DashSection.inactiveSec))).map (enrich now) ∧
    (partitionClusters now cs).1.length + (partitionClusters now cs).2.1.length +
      (partitionClusters now cs).2.2.length = cs.length ∧
    (∀ c : MappedCluster, c.active = false → sectionOf now c = DashSection.inactiveSec) := by
  have hspec := partitionClusters_eq_filters now cs
  refine ⟨by rw [hspec], by rw [hspec], by rw [hspec], ?_, ?_⟩
  · rw [hspec]
    simp only [List.length_map]
    exact filter_sections_length now cs
  · intro c ha
    simp [sectionOf, ha]

/-- Claim C6: get_top_clusters returns only active clusters, sorted by
avg_score descending, and the frontend mapping of the serialised
response preserves those scores (hence the presented order). -/
theorem c6_top_clusters_sorted (n : ℕ) (cs : List BackCluster) :
    (get_top_clusters n cs).all (fun c => c.active) = true ∧
    List.Sorted byScoreDesc (get_top_clusters n cs) ∧
    (((get_top_clusters n cs).map serializeCluster).map mapCluster).map
        (fun m => m.avgScore) =
      (get_top_clusters n cs).map (fun c => c.avg_score) := by
  refine ⟨?_, ?_, ?_⟩
  · rw [List.all_eq_true]
    intro c hc
    have hc1 : c ∈ List.insertionSort byScoreDesc (cs.filter (fun c => c.active)) :=
      (List.take_sublist n _).subset hc
    have hc2 : c ∈ cs.filter (fun c => c.active) :=
      (List.perm_insertionSort byScoreDesc _).subset hc1
    exact (List.mem_filter.mp hc2).2
  · exact List.Pairwise.sublist (List.take_sublist n _)
      (List.sorted_insertionSort byScoreDesc _)
  · simp [serializeCluster, mapCluster, jsOr]

/-- Claim C8: cluster naming is deterministic: the top 3 TF-IDF terms
are selected with ties broken alphabetically, so any two runs over the
same term multiset (in whatever order it is supplied) produce
byte-identical name strings. -/
theorem c8_naming_deterministic (t1 t2 : List (String × ℚ)) (hperm : t1.Perm t2) :
    clusterName t1 = clusterName t2 := by
  have hs : List.insertionSort termOrder t1 = List.insertionSort termOrder t2 :=
    List.eq_of_perm_of_sorted
      (((List.perm_insertionSort termOrder t1).trans hperm).trans
        (List.perm_insertionSort termOrder t2).symm)
      (List.sorted_insertionSort termOrder t1)
      (List.sorted_insertionSort termOrder t2)
  unfold clusterName topTerms
  rw [hs]

/-- Witness for C8: two orderings of the same scored terms, with a tie
between loan and urgent broken alphabetically, give the same name. -/
theorem c8_naming_deterministic_witness :
    clusterName [("upi", (2 : ℚ)), ("loan", 3), ("urgent", 3)] =
      clusterName [("loan", (3 : ℚ)), ("upi", 2), ("urgent", 3)] ∧
    clusterName [("upi", (2 : ℚ)), ("loan", 3), ("urgent", 3)] = "Loan / Urgent / Upi" :=
  ⟨c8_naming_deterministic _ _ (List.Perm.swap ("loan", 3) ("upi", 2) [("urgent", 3)]),
    by decide⟩

/-- A found partner shrinks the searched list by exactly one. -/
theorem findPartner_length (P : MCluster → MCluster → Bool) (c : MCluster) :
    ∀ l d rest', findPartner P c l = some (d, rest') → rest'.length + 1 = l.length := by
  intro l
  induction l with
  | nil => intro d rest' h; simp [findPartner] at h
  | cons b bs ih =>
    intro d rest' h
    by_cases hp : P c b
    · simp [findPartner, hp] at h
      rw [← h.2]
      simp
    · simp only [findPartner, hp, if_false] at h
      cases hf : findPartner P c bs with
      | none => rw [hf] at h; simp at h
      | some pr =>
        rw [hf] at h
        simp at h
        have := ih pr.1 pr.2 (by rw [hf])
        rw [← h.2]
        simp
        omega

/-- One merge step shrinks the cluster list by exactly one. -/
theorem mergeStep_length (P : MCluster → MCluster → Bool) :
    ∀ cs cs', mergeStep P cs = some cs' → cs'.length + 1 = cs.length := by
  intro cs
  induction cs with
  | nil => intro cs' h; simp [mergeStep] at h
  | cons c rest ih =>
    intro cs' h
    unfold mergeStep at h
    cases hf : findPartner P c rest with
    | some pr =>
      rw [hf] at h
      simp at h
      have hlen := findPartner_length P c rest pr.1 pr.2 (by rw [hf])
      rw [← h]
      simp
      omega
    | none =>
      rw [hf] at h
      cases hm : mergeStep P rest with
      | some rest' =>
        rw [hm] at h
        simp at h
        have := ih rest' hm
        rw [← h]
        simp
        omega
      | none => rw [hm] at h; simp at h

/-- With fuel at least the list length, merging runs to a state with no
mergeable pair left. -/
theorem mergeRun_none (P : MCluster → MCluster → Bool) :
    ∀ fuel cs, cs.length ≤ fuel → mergeStep P (mergeRun P fuel cs) = none := by
  intro fuel
  induction fuel with
  | zero =>
    intro cs h
    have hnil : cs = [] := List.length_eq_zero.mp (Nat.le_zero.mp h)
    subst hnil
    rfl
  | succ n ih =>
    intro cs h
    cases hm : mergeStep P cs with
    | some next =>
      have hlen := mergeStep_length P cs next hm
      simp only [mergeRun, hm]
      exact ih next (by omega)
    | none =>
      simp only [mergeRun, hm]

/-- A cluster list with no mergeable pair is a fixed point of the
merge runner at any fuel. -/
theorem mergeRun_fixed (P : MCluster → MCluster → Bool) (cs : List MCluster)
    (h : mergeStep P cs = none) : ∀ fuel, mergeRun P fuel cs = cs := by
  intro fuel
  cases fuel with
  | zero => rfl
  | succ n => simp [mergeRun, h]

/-- Claim C7: merging reaches a fixed point within one refresh cycle:
the combined set produced by the final sweep admits zero further
Pass-2 merges, so re-applying the similarity pass leaves it unchanged,
for every input cluster set. -/
theorem c7_merge_fixed_point (fresh persisted : List MCluster) :
    mergeStep pass2Pred (mergePipeline fresh persisted) = none ∧
    mergePass pass2Pred (mergePipeline fresh persisted) = mergePipeline fresh persisted := by
  have h : mergeStep pass2Pred (mergePipeline fresh persisted) = none := by
    unfold mergePipeline mergePass
    exact mergeRun_none pass2Pred _ _ (le_refl _)
  exact ⟨h, by unfold mergePass; exact mergeRun_fixed pass2Pred _ h _⟩
